import Mathlib

/-!
Verification development for the Nomad-server relay bridge.

Shallow embedding of the core request-correlation and lookup-orchestration
engine (src/app/server/src/nostr_handler.rs, protocol.rs, electrs.rs).
Network effects (HTTP calls to the chain indexer) are represented by an
oracle record whose fields return the typed result or typed failure the
Rust client would surface; logging is not modelled; a published response
event is modelled by the value the handler builds and submits.
-/

namespace NomadServer

/-! ## A minimal JSON value model (serde_json::Value) -/

/-- JSON values, mirroring serde_json::Value as used by the handler. -/
inductive Json where
  | null
  | bool (b : Bool)
  | num (n : Int)
  | str (s : String)
  | arr (elems : List Json)
  | obj (fields : List (String × Json))

/-- First field with the given key, mirroring serde_json object `get`. -/
def lookupField : List (String × Json) → String → Option Json
  | [], _ => none
  | (k, v) :: rest, key => if k = key then some v else lookupField rest key

/-- `Value::get(key)` on an object; `none` on non-objects. -/
def Json.get (j : Json) (key : String) : Option Json :=
  match j with
  | .obj fields => lookupField fields key
  | _ => none

/-- `Value::as_str()`. -/
def Json.asStr : Json → Option String
  | .str s => some s
  | _ => none

/-- The top-level keys of a JSON object, in order (observer used to compare
response shapes). -/
def Json.topKeys : Json → List String
  | .obj fields => fields.map Prod.fst
  | _ => []

/-! ## protocol.rs -/

/-- protocol.rs `TransactionInfo`: one entry of a lookup response. -/
structure TransactionInfo where
  txid : String
  timestamp : Int
  amount : Int
  confirmations : Nat
deriving DecidableEq, Repr

/-- protocol.rs `BitcoinLookupResponse`. -/
structure BitcoinLookupResponse where
  response_type : String
  query : String
  confirmed_balance : Int
  unconfirmed_balance : Int
  transactions : List TransactionInfo
deriving DecidableEq, Repr

/-- protocol.rs `BitcoinLookupResponse::new`. -/
def BitcoinLookupResponse.new (query : String) : BitcoinLookupResponse :=
  { response_type := "bitcoin_lookup_result"
    query := query
    confirmed_balance := 0
    unconfirmed_balance := 0
    transactions := [] }

/-! ## xpub.rs (modelled from the spec)

The module `xpub` is declared by lib.rs and used by nostr_handler.rs
(`is_xpub`, `is_bitcoin_address`, `derive_addresses`), but its source file
is not part of the sources. The three functions are modelled from the
spec, section 4.1. -/

/-- Whether `p` is a leading substring of `q`, over the character lists. -/
def strHasPrefix (p q : String) : Bool :=
  p.data.isPrefixOf q.data

/-- Modelled from the spec: `is_xpub` lives in src/xpub.rs, which is absent.
Spec 4.1: a query matching a known extended-public-key prefix family
(legacy, nested-segwit, native-segwit, and their test-network equivalents)
is an ExtendedPublicKey. -/
def is_xpub (q : String) : Bool :=
  ["xpub", "ypub", "zpub", "tpub", "upub", "vpub"].any
    (fun p => strHasPrefix p q)

/-- Modelled from the spec: `is_bitcoin_address` lives in src/xpub.rs, which
is absent. Spec 4.1: a query matching any supported address encoding is a
SingleAddress. Modelled as a leading version or bech32 marker plus a
minimal length; in particular the empty string matches no encoding. -/
def is_bitcoin_address (q : String) : Bool :=
  decide (26 ≤ q.length) &&
    ["1", "3", "bc1", "tb1", "m", "n", "2", "bcrt1"].any
      (fun p => strHasPrefix p q)

/-- Modelled from the spec: checksum/format validation of an extended key
(spec 4.1, DerivationError condition), abstracted as a format predicate. -/
def xpub_format_ok (xkey : String) : Bool :=
  is_xpub xkey && decide (8 ≤ xkey.length)

/-- Modelled from the spec: `derive_addresses` lives in src/xpub.rs, which
is absent. Spec 4.1: fails with a DerivationError if the key fails
checksum/format validation; otherwise deterministically produces
`gap_limit` addresses along the external (receive) chain, indices
0..gap_limit-1. Addresses are rendered as key-and-path strings. -/
def derive_addresses (xkey : String) (gap_limit : Nat) :
    Except String (List String) :=
  if xpub_format_ok xkey then
    .ok ((List.range gap_limit).map (fun i => xkey ++ "/0/" ++ toString i))
  else
    .error "DerivationError"

/-! ## electrs.rs: the indexer client as an oracle

`ElectrsClient` performs HTTP calls; each call either returns the typed
payload or an error (connection failure or non-success status). The
embedding abstracts one run of the external indexer as an oracle giving
each call site its outcome. -/

/-- Outcomes of the indexer calls the lookup handler makes:
`get_address_balance` (electrs.rs) returning (confirmed, unconfirmed)
satoshis, and `get_address_txs` returning the transaction-id list for an
address (most-recent-first as delivered by the indexer). -/
structure ElectrsOracle where
  get_address_balance : String → Except String (Int × Int)
  get_address_txs : String → Except String (List String)

/-! ## Vec::sort / Vec::dedup on txid strings

nostr_handler.rs sorts the collected txids ascending and removes
consecutive duplicates (`all_txids.sort(); all_txids.dedup();`). The
ascending order of Rust String values is modelled as the lexicographic
order on the character lists. -/

/-- Lexicographic comparison of character lists (the order Vec::sort of
strings uses). -/
def lexLeChars : List Char → List Char → Bool
  | [], _ => true
  | _ :: _, [] => false
  | a :: as, b :: bs =>
      if a < b then true
      else if b < a then false
      else lexLeChars as bs

/-- Lexicographic order on strings, as a boolean function. -/
def strLe (a b : String) : Bool :=
  lexLeChars a.data b.data

/-- Lexicographic order on strings, as a relation. -/
def strLeP (a b : String) : Prop :=
  strLe a b = true

/-- Strict lexicographic order on strings. -/
def strLtP (a b : String) : Prop :=
  strLe a b = true ∧ a ≠ b

instance : DecidableRel strLeP :=
  fun a b => inferInstanceAs (Decidable (strLe a b = true))

instance : DecidableRel strLtP :=
  fun a b => inferInstanceAs (Decidable (strLe a b = true ∧ a ≠ b))

/-- `Vec::sort` on strings: ascending lexicographic sort. -/
def sortStrings (l : List String) : List String :=
  List.insertionSort strLeP l

/-- Helper of `dedupAdj`: drop entries equal to the previous kept entry. -/
def dedupAdjAux (prev : String) : List String → List String
  | [] => []
  | b :: rest =>
      if prev = b then dedupAdjAux prev rest
      else b :: dedupAdjAux b rest

/-- `Vec::dedup`: remove consecutive duplicates, keeping the first. -/
def dedupAdj : List String → List String
  | [] => []
  | a :: rest => a :: dedupAdjAux a rest

/-! ## nostr_handler.rs -/

/-- Event kind used by the paired client for requests. -/
def BALANCEBRIDGE_REQUEST_KIND : Nat := 30078

/-- Event kind used by this server for responses. -/
def BALANCEBRIDGE_RESPONSE_KIND : Nat := 30079

/-- An inbound relay event as the handler observes it. `content` is the
result of parsing the event body as JSON (`none` models a serde parse
failure). -/
structure NEvent where
  kind : Nat
  pubkey : String
  created_at : Nat
  tags : List (List String)
  content : Option Json

/-- One step of the tag scan in `is_balancebridge_request`: tags shorter
than two entries are skipped; a `req` tag records its value (a later tag
overwrites an earlier one, as in the source loop); a `p` tag whose value
equals the server public key hex sets the match flag. -/
def bb_scan (serverPk : String) (acc : Option String × Bool)
    (t : List String) : Option String × Bool :=
  match t with
  | t0 :: t1 :: _ =>
      if t0 = "req" then (some t1, acc.2)
      else if t0 = "p" then (acc.1, acc.2 || decide (t1 = serverPk))
      else acc
  | _ => acc

/-- nostr_handler.rs `is_balancebridge_request`: returns the correlation id
when the event carries a `p` tag matching this server and a `req` tag;
otherwise `none`. -/
def is_balancebridge_request (tags : List (List String))
    (serverPk : String) : Option String :=
  let r := tags.foldl (bb_scan serverPk) (none, false)
  if r.2 then r.1 else none

/-- One step of the `req`-tag extraction loop at the top of `handle_event`:
a tag of length at least two whose first entry is `req` records its value
(a later tag overwrites an earlier one). -/
def req_tag_step (acc : Option String) (t : List String) : Option String :=
  match t with
  | t0 :: t1 :: _ => if t0 = "req" then some t1 else acc
  | _ => acc

/-- The `req`-tag extraction loop at the top of `handle_event`: the last
tag of length at least two whose first entry is `req` wins. -/
def extract_req_tag (tags : List (List String)) : Option String :=
  tags.foldl req_tag_step none

/-- One iteration of the per-derived-address loop in
`process_bitcoin_lookup` (xpub branch): a failed balance fetch leaves the
totals unchanged, a failed transaction fetch leaves the txid list
unchanged; both failures are logged in the source and the loop continues. -/
def xpubStep (o : ElectrsOracle) (acc : Int × Int × List String)
    (address : String) : Int × Int × List String :=
  let acc1 : Int × Int × List String :=
    match o.get_address_balance address with
    | .ok (confirmed, unconfirmed) =>
        (acc.1 + confirmed, acc.2.1 + unconfirmed, acc.2.2)
    | .error _ => acc
  match o.get_address_txs address with
  | .ok txids => (acc1.1, acc1.2.1, acc1.2.2 ++ txids)
  | .error _ => acc1

/-- nostr_handler.rs `process_bitcoin_lookup`. The xpub branch derives 20
addresses, accumulates per-address balances and txids with per-address
failures contributing zero, then sorts and dedups the txids. The
single-address branch propagates indexer failures and keeps the txid list
as delivered. Any other query is rejected. Balances are modelled as
unbounded integers (the source uses 64-bit values; no claim concerns
overflow). -/
def process_bitcoin_lookup (o : ElectrsOracle) (query : String) :
    Except String BitcoinLookupResponse :=
  let response := BitcoinLookupResponse.new query
  if is_xpub query then
    match derive_addresses query 20 with
    | .error e => .error e
    | .ok addresses =>
        let r := addresses.foldl (xpubStep o) (0, 0, [])
        let all_txids := dedupAdj (sortStrings r.2.2)
        .ok { response with
              confirmed_balance := r.1
              unconfirmed_balance := r.2.1
              transactions := all_txids.map
                (fun txid =>
                  { txid := txid, timestamp := 0, amount := 0,
                    confirmations := 1 }) }
  else if is_bitcoin_address query then
    match o.get_address_balance query with
    | .error e => .error e
    | .ok (confirmed, unconfirmed) =>
        match o.get_address_txs query with
        | .error e => .error e
        | .ok txids =>
            .ok { response with
                  confirmed_balance := confirmed
                  unconfirmed_balance := unconfirmed
                  transactions := txids.map
                    (fun txid =>
                      { txid := txid, timestamp := 0, amount := 0,
                        confirmations := 1 }) }
  else
    .error "Invalid query: not an address or xpub"

/-- serde serialization of a `TransactionInfo` value. -/
def txInfoJson (t : TransactionInfo) : Json :=
  .obj [("txid", .str t.txid), ("timestamp", .num t.timestamp),
        ("amount", .num t.amount), ("confirmations", .num t.confirmations)]

/-- The response payload `handle_event` builds: on success a nested object
with the lookup result under `result`, on failure a flat error object;
both carry the request correlation id under `req`. -/
def build_response_json (reqId : String) :
    Except String BitcoinLookupResponse → Json
  | .ok result =>
      .obj [("type", .str "bitcoin_lookup_response"),
            ("req", .str reqId),
            ("status", .str "ok"),
            ("result", .obj
              [("query", .str result.query),
               ("confirmed_balance", .num result.confirmed_balance),
               ("unconfirmed_balance", .num result.unconfirmed_balance),
               ("transactions", .arr (result.transactions.map txInfoJson))])]
  | .error e =>
      .obj [("type", .str "bitcoin_lookup_response"),
            ("req", .str reqId),
            ("status", .str "error"),
            ("error", .str e)]

/-- The `query` extraction in `handle_event`:
`parsed.get("query").and_then(as_str).unwrap_or("")`. -/
def query_of (parsed : Json) : String :=
  ((parsed.get "query").bind Json.asStr).getD ""

/-- The `type` extraction in `handle_event`:
`parsed.get("type").and_then(as_str).unwrap_or("unknown")`. The source
only logs this value; it does not branch on it. -/
def request_type_of (parsed : Json) : String :=
  ((parsed.get "type").bind Json.asStr).getD "unknown"

/-- The outbound response event `handle_event` builds, signs and submits. -/
structure RespEvent where
  kind : Nat
  tags : List (List String)
  content : Json

/-- nostr_handler.rs `handle_event`: extract the `req` tag (no tag: log and
return without a response), parse the body as JSON (parse failure: log and
return without a response), extract `query`, run the bitcoin lookup, and
build the response event tagged with the requester key and the correlation
id. The `type` field is read only for logging. A publish failure is logged
in the source after the event is built; the built event is the modelled
outbound response. -/
def handle_event (o : ElectrsOracle) (ev : NEvent) : Option RespEvent :=
  match extract_req_tag ev.tags with
  | none => none
  | some reqId =>
      match ev.content with
      | none => none
      | some parsed =>
          let lookup_result := process_bitcoin_lookup o (query_of parsed)
          some { kind := BALANCEBRIDGE_RESPONSE_KIND
                 tags := [["p", ev.pubkey], ["req", reqId]]
                 content := build_response_json reqId lookup_result }

/-- nostr_handler.rs `check_event_expiration`, as a function of the event
timestamp and the current clock (both seconds since the epoch). First
component: whether the too-old warning is logged; second: the returned
result, which is always success (the source never rejects by age; its only
failure case, a system clock before the epoch, is unrepresentable here). -/
def check_event_expiration (event_time now : Nat) :
    Bool × Except String Unit :=
  let delta := if now > event_time then now - event_time else 0
  (decide (delta > 60), .ok ())

/-- The per-notification dispatch in `start_listening`: only events of the
request kind that `is_balancebridge_request` accepts reach `handle_event`;
everything else is ignored without a response. -/
def processNotification (o : ElectrsOracle) (serverPk : String)
    (ev : NEvent) : Option RespEvent :=
  if ev.kind = BALANCEBRIDGE_REQUEST_KIND then
    match is_balancebridge_request ev.tags serverPk with
    | some _ => handle_event o ev
    | none => none
  else
    none

/-! ## Specification vocabulary

Observers used only to state theorems about the embedding. -/

/-- The balance contribution of one derived address: the fetched pair on
success, zero on failure. -/
def balance_or_zero (o : ElectrsOracle) (a : String) : Int × Int :=
  match o.get_address_balance a with
  | .ok p => p
  | .error _ => (0, 0)

/-- The transaction-id contribution of one derived address: the fetched
list on success, nothing on failure. -/
def txids_or_nil (o : ElectrsOracle) (a : String) : List String :=
  match o.get_address_txs a with
  | .ok l => l
  | .error _ => []

/-! ## Order facts about the lexicographic comparison -/

theorem lexLeChars_total : ∀ xs ys : List Char,
    lexLeChars xs ys = true ∨ lexLeChars ys xs = true := by
  intro xs
  induction xs with
  | nil => intro ys; left; rfl
  | cons a as ih =>
      intro ys
      cases ys with
      | nil => right; rfl
      | cons b bs =>
          rcases lt_trichotomy a b with hab | hab | hab
          · left; simp [lexLeChars, hab]
          · subst hab
            rcases ih bs with h | h
            · left; simp [lexLeChars, h, lt_irrefl]
            · right; simp [lexLeChars, h, lt_irrefl]
          · right; simp [lexLeChars, hab]

theorem lexLeChars_trans : ∀ xs ys zs : List Char,
    lexLeChars xs ys = true → lexLeChars ys zs = true →
    lexLeChars xs zs = true := by
  intro xs
  induction xs with
  | nil => intro ys zs _ _; rfl
  | cons a as ih =>
      intro ys zs h1 h2
      cases ys with
      | nil => simp [lexLeChars] at h1
      | cons b bs =>
          cases zs with
          | nil => simp [lexLeChars] at h2
          | cons c cs =>
              rcases lt_trichotomy a b with hab | hab | hab
              · rcases lt_trichotomy b c with hbc | hbc | hbc
                · simp [lexLeChars, lt_trans hab hbc]
                · subst hbc; simp [lexLeChars, hab]
                · simp [lexLeChars, hbc, asymm hbc] at h2
              · subst hab
                rcases lt_trichotomy a c with hac | hac | hac
                · simp [lexLeChars, hac]
                · subst hac
                  simp [lexLeChars, lt_irrefl] at h1 h2 ⊢
                  exact ih _ _ h1 h2
                · simp [lexLeChars, hac, asymm hac] at h2
              · simp [lexLeChars, hab, asymm hab] at h1

theorem lexLeChars_antisymm : ∀ xs ys : List Char,
    lexLeChars xs ys = true → lexLeChars ys xs = true → xs = ys := by
  intro xs
  induction xs with
  | nil =>
      intro ys _ h2
      cases ys with
      | nil => rfl
      | cons b bs => simp [lexLeChars] at h2
  | cons a as ih =>
      intro ys h1 h2
      cases ys with
      | nil => simp [lexLeChars] at h1
      | cons b bs =>
          rcases lt_trichotomy a b with hab | hab | hab
          · simp [lexLeChars, hab, asymm hab] at h2
          · subst hab
            simp [lexLeChars, lt_irrefl] at h1 h2
            rw [ih _ h1 h2]
          · simp [lexLeChars, hab, asymm hab] at h1

instance : IsTotal String strLeP :=
  ⟨fun a b => lexLeChars_total a.data b.data⟩

instance : IsTrans String strLeP :=
  ⟨fun a b c h1 h2 => lexLeChars_trans a.data b.data c.data h1 h2⟩

theorem strLeP_antisymm {a b : String} (h1 : strLeP a b) (h2 : strLeP b a) :
    a = b := by
  cases a; cases b
  exact congrArg String.mk (lexLeChars_antisymm _ _ h1 h2)

instance : IsIrrefl String strLtP :=
  ⟨fun _ h => h.2 rfl⟩

theorem strLtP_le {a b : String} (h : strLtP a b) : strLeP a b := h.1

/-! ## Sortedness and duplicate freedom of the sort-dedup pipeline -/

theorem sorted_sortStrings (l : List String) :
    List.Sorted strLeP (sortStrings l) :=
  List.sorted_insertionSort strLeP l

theorem mem_dedupAdjAux {x : String} :
    ∀ (p : String) (l : List String), x ∈ dedupAdjAux p l → x ∈ l := by
  intro p l
  induction l generalizing p with
  | nil => intro h; exact absurd h (List.not_mem_nil x)
  | cons b rest ih =>
      intro h
      by_cases hpb : p = b
      · simp only [dedupAdjAux, if_pos hpb] at h
        exact List.mem_cons_of_mem b (ih p h)
      · simp only [dedupAdjAux, if_neg hpb] at h
        rcases List.mem_cons.mp h with h | h
        · exact h ▸ List.mem_cons_self b rest
        · exact List.mem_cons_of_mem b (ih b h)

theorem dedupAdjAux_sorted :
    ∀ (l : List String) (p : String), List.Sorted strLeP (p :: l) →
      List.Sorted strLtP (dedupAdjAux p l) ∧
        ∀ x ∈ dedupAdjAux p l, strLtP p x := by
  intro l
  induction l with
  | nil => intro p _; exact ⟨List.sorted_nil, by intro x hx; cases hx⟩
  | cons b rest ih =>
      intro p hs
      have hpb : strLeP p b := List.rel_of_sorted_cons hs b (List.mem_cons_self b rest)
      have hsTail : List.Sorted strLeP (b :: rest) := List.Sorted.of_cons hs
      by_cases hpeq : p = b
      · subst hpeq
        simp only [dedupAdjAux, if_pos rfl]
        exact ih p hsTail
      · simp only [dedupAdjAux, if_neg hpeq]
        obtain ⟨hrec, hall⟩ := ih b hsTail
        constructor
        · exact List.sorted_cons.mpr ⟨hall, hrec⟩
        · intro x hx
          rcases List.mem_cons.mp hx with hx | hx
          · rw [hx]; exact ⟨hpb, hpeq⟩
          · have hbx := hall x hx
            refine ⟨lexLeChars_trans _ _ _ hpb hbx.1, ?_⟩
            intro hpx
            exact hpeq (strLeP_antisymm hpb (hpx ▸ hbx.1))

theorem dedupAdj_sorted_lt {l : List String}
    (h : List.Sorted strLeP l) : List.Sorted strLtP (dedupAdj l) := by
  cases l with
  | nil => exact List.sorted_nil
  | cons a rest =>
      obtain ⟨hrec, hall⟩ := dedupAdjAux_sorted rest a h
      exact List.sorted_cons.mpr ⟨hall, hrec⟩

theorem dedupAdj_sorted {l : List String}
    (h : List.Sorted strLeP l) : List.Sorted strLeP (dedupAdj l) :=
  (dedupAdj_sorted_lt h).imp strLtP_le

theorem dedupAdj_nodup {l : List String}
    (h : List.Sorted strLeP l) : (dedupAdj l).Nodup :=
  (dedupAdj_sorted_lt h).nodup

/-! ## Characterizing the per-address aggregation loop -/

theorem xpubStep_eq (o : ElectrsOracle) (acc : Int × Int × List String)
    (a : String) :
    xpubStep o acc a =
      (acc.1 + (balance_or_zero o a).1,
       acc.2.1 + (balance_or_zero o a).2,
       acc.2.2 ++ txids_or_nil o a) := by
  unfold xpubStep balance_or_zero txids_or_nil
  cases hb : o.get_address_balance a with
  | ok p => cases p with
      | mk c u => cases ht : o.get_address_txs a <;> simp
  | error e => cases ht : o.get_address_txs a <;> simp

theorem xpub_foldl_spec (o : ElectrsOracle) :
    ∀ (addrs : List String) (c u : Int) (txs : List String),
      addrs.foldl (xpubStep o) (c, u, txs) =
        (c + (addrs.map (fun a => (balance_or_zero o a).1)).sum,
         u + (addrs.map (fun a => (balance_or_zero o a).2)).sum,
         txs ++ addrs.flatMap (txids_or_nil o)) := by
  intro addrs
  induction addrs with
  | nil => intro c u txs; simp
  | cons a rest ih =>
      intro c u txs
      rw [List.foldl_cons, xpubStep_eq, ih]
      simp [add_assoc]

/-- The xpub branch of `process_bitcoin_lookup`, in closed form: per-address
failures contribute zero, the remaining contributions are summed, and the
txid union is sorted and dedupped. -/
theorem process_bitcoin_lookup_xpub (o : ElectrsOracle) {q : String}
    {addrs : List String} (hx : is_xpub q = true)
    (hd : derive_addresses q 20 = .ok addrs) :
    process_bitcoin_lookup o q = .ok
      { response_type := "bitcoin_lookup_result"
        query := q
        confirmed_balance :=
          (addrs.map (fun a => (balance_or_zero o a).1)).sum
        unconfirmed_balance :=
          (addrs.map (fun a => (balance_or_zero o a).2)).sum
        transactions :=
          (dedupAdj (sortStrings (addrs.flatMap (txids_or_nil o)))).map
            (fun txid =>
              { txid := txid, timestamp := 0, amount := 0,
                confirmations := 1 }) } := by
  unfold process_bitcoin_lookup
  rw [hx, hd]
  simp only [xpub_foldl_spec, zero_add, List.nil_append,
    BitcoinLookupResponse.new, if_true]

/-! ## The tag scans -/

theorem bb_scan_fst (pk : String) :
    ∀ (tags : List (List String)) (acc : Option String × Bool),
      (tags.foldl (bb_scan pk) acc).1 = tags.foldl req_tag_step acc.1 := by
  intro tags
  induction tags with
  | nil => intro acc; rfl
  | cons t rest ih =>
      intro acc
      rw [List.foldl_cons, List.foldl_cons, ih]
      congr 1
      cases t with
      | nil => rfl
      | cons t0 ts =>
          cases ts with
          | nil => rfl
          | cons t1 ts2 =>
              by_cases h0 : t0 = "req"
              · simp [bb_scan, req_tag_step, h0]
              · by_cases h1 : t0 = "p" <;>
                  simp [bb_scan, req_tag_step, h0, h1]

/-- When the filter accepts an event with correlation id `r`, the
extraction loop inside `handle_event` finds the same id. -/
theorem extract_req_of_bb {tags : List (List String)} {pk r : String}
    (h : is_balancebridge_request tags pk = some r) :
    extract_req_tag tags = some r := by
  unfold is_balancebridge_request at h
  rcases hfold : tags.foldl (bb_scan pk) (none, false) with ⟨f, s⟩
  rw [hfold] at h
  have hfst := bb_scan_fst pk tags (none, false)
  rw [hfold] at hfst
  cases s with
  | false => exact absurd h (by simp)
  | true =>
      simp only [if_true] at h
      unfold extract_req_tag
      rw [← hfst, h]

theorem bb_fst_none (pk : String) :
    ∀ tags : List (List String),
      (∀ t ∈ tags, t.get? 0 ≠ some "req") →
      ∀ b, (tags.foldl (bb_scan pk) (none, b)).1 = none := by
  intro tags
  induction tags with
  | nil => intro _ b; rfl
  | cons t rest ih =>
      intro h b
      have ht := h t (List.mem_cons_self t rest)
      have hrest := fun t' h' => h t' (List.mem_cons_of_mem t h')
      cases t with
      | nil => rw [List.foldl_cons]; exact ih hrest b
      | cons t0 ts =>
          cases ts with
          | nil => rw [List.foldl_cons]; exact ih hrest b
          | cons t1 ts2 =>
              have ht0 : t0 ≠ "req" := fun hc => ht (by simp [hc])
              by_cases hp : t0 = "p"
              · rw [List.foldl_cons]
                simp only [bb_scan, if_neg ht0, if_pos hp]
                exact ih hrest _
              · rw [List.foldl_cons]
                simp only [bb_scan, if_neg ht0, if_neg hp]
                exact ih hrest b

/-- An event with no `req` tag is rejected by the filter. -/
theorem is_bb_none_of_no_req {tags : List (List String)} {pk : String}
    (h : ∀ t ∈ tags, t.get? 0 ≠ some "req") :
    is_balancebridge_request tags pk = none := by
  unfold is_balancebridge_request
  have hfst := bb_fst_none pk tags h false
  rcases hfold : tags.foldl (bb_scan pk) (none, false) with ⟨f, s⟩
  rw [hfold] at hfst
  simp only at hfst
  subst hfst
  cases s <;> rfl

theorem bb_snd_false (pk : String) :
    ∀ tags : List (List String),
      (∀ t ∈ tags, t.get? 0 = some "p" → t.get? 1 ≠ some pk) →
      ∀ a, (tags.foldl (bb_scan pk) (a, false)).2 = false := by
  intro tags
  induction tags with
  | nil => intro _ a; rfl
  | cons t rest ih =>
      intro h a
      have ht := h t (List.mem_cons_self t rest)
      have hrest := fun t' h' => h t' (List.mem_cons_of_mem t h')
      cases t with
      | nil => rw [List.foldl_cons]; exact ih hrest a
      | cons t0 ts =>
          cases ts with
          | nil => rw [List.foldl_cons]; exact ih hrest a
          | cons t1 ts2 =>
              by_cases h0 : t0 = "req"
              · rw [List.foldl_cons]
                simp only [bb_scan, if_pos h0]
                exact ih hrest _
              · by_cases hp : t0 = "p"
                · have ht1 : t1 ≠ pk := fun hc => ht (by simp [hp]) (by simp [hc])
                  rw [List.foldl_cons]
                  simp only [bb_scan, if_neg h0, if_pos hp, ht1,
                    decide_eq_false, Bool.or_false]
                  exact ih hrest a
                · rw [List.foldl_cons]
                  simp only [bb_scan, if_neg h0, if_neg hp]
                  exact ih hrest a

/-- An event none of whose `p` tags match this server is rejected by the
filter. -/
theorem is_bb_none_of_wrong_recipient {tags : List (List String)}
    {pk : String}
    (h : ∀ t ∈ tags, t.get? 0 = some "p" → t.get? 1 ≠ some pk) :
    is_balancebridge_request tags pk = none := by
  unfold is_balancebridge_request
  have hsnd := bb_snd_false pk tags h none
  rcases hfold : tags.foldl (bb_scan pk) (none, false) with ⟨f, s⟩
  rw [hfold] at hsnd
  simp only at hsnd
  subst hsnd
  rfl

/-! ## Shape of the built response payload -/

/-- Both response branches carry the correlation id under `req`. -/
theorem build_response_json_req (reqId : String)
    (res : Except String BitcoinLookupResponse) :
    (build_response_json reqId res).get "req" = some (.str reqId) := by
  cases res <;> rfl

/-- The error branch carries status `error`. -/
theorem build_response_json_error_status (reqId e : String) :
    (build_response_json reqId (.error e)).get "status" =
      some (.str "error") := rfl

/-- An empty query is classified neither as an address nor as an extended
key, so the lookup rejects it. -/
theorem process_bitcoin_lookup_empty (o : ElectrsOracle) :
    process_bitcoin_lookup o "" =
      .error "Invalid query: not an address or xpub" := rfl

/-- Reading the txids back out of the constant-metadata entries gives the
original list. -/
theorem map_txid_mk (l : List String) :
    (l.map (fun txid =>
      ({ txid := txid, timestamp := 0, amount := 0, confirmations := 1 } :
        TransactionInfo))).map TransactionInfo.txid = l := by
  induction l with
  | nil => rfl
  | cons a rest ih => simp [ih]

/-- Closed form of the dispatch for an accepted event: an event of the
request kind that carries a matching `p` tag, a `req` tag and a parsable
body is always routed to the bitcoin lookup and always answered. -/
theorem processNotification_accepted (o : ElectrsOracle) {pk : String}
    {ev : NEvent} {reqId : String} {body : Json}
    (hk : ev.kind = BALANCEBRIDGE_REQUEST_KIND)
    (hb : is_balancebridge_request ev.tags pk = some reqId)
    (hc : ev.content = some body) :
    processNotification o pk ev = some
      { kind := BALANCEBRIDGE_RESPONSE_KIND
        tags := [["p", ev.pubkey], ["req", reqId]]
        content := build_response_json reqId
          (process_bitcoin_lookup o (query_of body)) } := by
  unfold processNotification
  rw [if_pos hk]
  simp only [hb]
  unfold handle_event
  simp only [extract_req_of_bb hb, hc]

/-! ## Concrete fixtures for witnesses and counterexamples -/

/-- An indexer reporting confirmed=5000, unconfirmed=0 and an empty
history for every address. -/
def oFlat : ElectrsOracle where
  get_address_balance := fun _ => .ok (5000, 0)
  get_address_txs := fun _ => .ok []

/-- An indexer failing both calls on the first address derived from the
test key, and reporting (10, 1) sats and the history [tb, ta] (most recent
first) everywhere else. -/
def oPartial : ElectrsOracle where
  get_address_balance := fun a =>
    if a = "xpub1234/0/0" then .error "connection refused" else .ok (10, 1)
  get_address_txs := fun a =>
    if a = "xpub1234/0/0" then .error "connection refused"
    else .ok ["tb", "ta"]

/-- The 20 receive addresses derived from the test extended key. -/
def addrsX : List String :=
  (List.range 20).map (fun i => "xpub1234/0/" ++ toString i)

/-- A valid native-segwit address (BIP-173 test vector). -/
def addrW : String := "bc1qw508d6qejxtdg4y5r3zarvary0c5xw7kv8f3t4"

/-- A request event with a correlation tag but an unrecognized `type` and
no `query` field. -/
def evUnknownType : NEvent :=
  { kind := 30078
    pubkey := "clientpk"
    created_at := 0
    tags := [["p", "serverpk"], ["req", "r1"]]
    content := some (.obj [("type", .str "mystery_type")]) }

/-- A well-formed bitcoin_lookup request for `addrW`, correlation id r1. -/
def evLookup : NEvent :=
  { kind := 30078
    pubkey := "clientpk"
    created_at := 0
    tags := [["p", "serverpk"], ["req", "r1"]]
    content := some (.obj
      [("type", .str "bitcoin_lookup"), ("query", .str addrW)]) }

/-- A request-kind event addressed to this server but with no `req` tag. -/
def evNoReq : NEvent :=
  { kind := 30078
    pubkey := "clientpk"
    created_at := 0
    tags := [["p", "serverpk"], ["e", "someid"]]
    content := some (.obj [("type", .str "bitcoin_lookup")]) }

/-- A request-kind event with a correlation tag but addressed to another
server. -/
def evWrongRecipient : NEvent :=
  { kind := 30078
    pubkey := "clientpk"
    created_at := 0
    tags := [["req", "r1"], ["p", "someotherserver"]]
    content := some (.obj [("type", .str "bitcoin_lookup")]) }

/-- The response event the handler publishes for `evLookup` against
`oFlat`. -/
def respFlatLookup : RespEvent :=
  { kind := 30079
    tags := [["p", "clientpk"], ["req", "r1"]]
    content := .obj
      [("type", .str "bitcoin_lookup_response"),
       ("req", .str "r1"),
       ("status", .str "ok"),
       ("result", .obj
         [("query", .str addrW),
          ("confirmed_balance", .num 5000),
          ("unconfirmed_balance", .num 0),
          ("transactions", .arr [])])] }

/-- The lookup result for the single address `addrW` against `oPartial`. -/
def respSingle : BitcoinLookupResponse :=
  { response_type := "bitcoin_lookup_result"
    query := addrW
    confirmed_balance := 10
    unconfirmed_balance := 1
    transactions :=
      [{ txid := "tb", timestamp := 0, amount := 0, confirmations := 1 },
       { txid := "ta", timestamp := 0, amount := 0, confirmations := 1 }] }

/-- The flat response body the specification scenario asserts. -/
def claimedFlatBody : Json :=
  .obj [("req", .str "r1"),
        ("confirmed_balance", .num 5000),
        ("unconfirmed_balance", .num 0),
        ("transactions", .arr [])]

/-! ## The claims -/

/-- C1: for every extended-public-key query, a failed indexer balance or
transaction fetch for a single derived address contributes zero, the
remaining addresses are still aggregated, and the lookup returns an
aggregate result instead of an error. -/
theorem claim_C1 (o : ElectrsOracle) (q : String) (addrs : List String)
    (hx : is_xpub q = true) (hd : derive_addresses q 20 = .ok addrs) :
    ∃ r, process_bitcoin_lookup o q = .ok r ∧
      r.confirmed_balance =
        (addrs.map (fun a => (balance_or_zero o a).1)).sum ∧
      r.unconfirmed_balance =
        (addrs.map (fun a => (balance_or_zero o a).2)).sum ∧
      r.transactions.map TransactionInfo.txid =
        dedupAdj (sortStrings (addrs.flatMap (txids_or_nil o))) := by
  refine ⟨_, process_bitcoin_lookup_xpub o hx hd, rfl, rfl, ?_⟩
  exact map_txid_mk _

/-- Witness for C1: the test key with an indexer failing on its first
derived address. -/
theorem claim_C1_witness :
    is_xpub "xpub1234" = true ∧
    derive_addresses "xpub1234" 20 = .ok addrsX ∧
    (∃ r, process_bitcoin_lookup oPartial "xpub1234" = .ok r ∧
      r.confirmed_balance =
        (addrsX.map (fun a => (balance_or_zero oPartial a).1)).sum ∧
      r.unconfirmed_balance =
        (addrsX.map (fun a => (balance_or_zero oPartial a).2)).sum ∧
      r.transactions.map TransactionInfo.txid =
        dedupAdj (sortStrings (addrsX.flatMap (txids_or_nil oPartial)))) :=
  ⟨by decide, by rfl,
    claim_C1 oPartial "xpub1234" addrsX (by decide) (by rfl)⟩

/-- C2: an inbound event whose tag list contains no `req` tag produces no
outbound response. -/
theorem claim_C2 (o : ElectrsOracle) (pk : String) (ev : NEvent)
    (h : ∀ t ∈ ev.tags, t.get? 0 ≠ some "req") :
    processNotification o pk ev = none := by
  unfold processNotification
  rw [is_bb_none_of_no_req h]
  split <;> rfl

/-- Witness for C2: a request-kind event addressed to this server with an
`e` tag but no `req` tag. -/
theorem claim_C2_witness :
    (∀ t ∈ evNoReq.tags, t.get? 0 ≠ some "req") ∧
    processNotification oFlat "serverpk" evNoReq = none :=
  ⟨by decide, claim_C2 oFlat "serverpk" evNoReq (by decide)⟩

/-- C3: an inbound event none of whose `p` tags carry this server's public
key hex invokes no handler and produces no outbound response. -/
theorem claim_C3 (o : ElectrsOracle) (pk : String) (ev : NEvent)
    (h : ∀ t ∈ ev.tags, t.get? 0 = some "p" → t.get? 1 ≠ some pk) :
    is_balancebridge_request ev.tags pk = none ∧
      processNotification o pk ev = none := by
  have hbb := @is_bb_none_of_wrong_recipient ev.tags pk h
  refine ⟨hbb, ?_⟩
  unfold processNotification
  rw [hbb]
  split <;> rfl

/-- Witness for C3: a request-kind event whose only `p` tag names another
server. -/
theorem claim_C3_witness :
    (∀ t ∈ evWrongRecipient.tags,
      t.get? 0 = some "p" → t.get? 1 ≠ some "serverpk") ∧
    (is_balancebridge_request evWrongRecipient.tags "serverpk" = none ∧
      processNotification oFlat "serverpk" evWrongRecipient = none) :=
  ⟨by decide, claim_C3 oFlat "serverpk" evWrongRecipient (by decide)⟩

/-- Counterexample to C4: a well-formed request whose `type` is the
unrecognized `mystery_type` is not discarded — the dispatcher still
produces an outbound response for it (there is no routing on `type`). -/
theorem claim_C4_counterexample :
    is_balancebridge_request evUnknownType.tags "serverpk" = some "r1" ∧
    request_type_of (.obj [("type", .str "mystery_type")]) =
      "mystery_type" ∧
    (processNotification oFlat "serverpk" evUnknownType).isSome = true :=
  ⟨rfl, rfl, rfl⟩

/-- C4 as amended: the dispatcher reads the declared `type` field but does
not route on it; every accepted request with a parsable body is handled by
the single bitcoin_lookup handler, and a request with an unrecognized
`type` is still answered. -/
theorem claim_C4_amended (o : ElectrsOracle) (pk : String) (ev : NEvent)
    (reqId : String) (body : Json)
    (hk : ev.kind = BALANCEBRIDGE_REQUEST_KIND)
    (hb : is_balancebridge_request ev.tags pk = some reqId)
    (hc : ev.content = some body) :
    processNotification o pk ev = some
      { kind := BALANCEBRIDGE_RESPONSE_KIND
        tags := [["p", ev.pubkey], ["req", reqId]]
        content := build_response_json reqId
          (process_bitcoin_lookup o (query_of body)) } :=
  processNotification_accepted o hk hb hc

/-- Witness for the amended C4: the `mystery_type` request is answered by
the bitcoin lookup path. -/
theorem claim_C4_amended_witness :
    evUnknownType.kind = BALANCEBRIDGE_REQUEST_KIND ∧
    is_balancebridge_request evUnknownType.tags "serverpk" = some "r1" ∧
    evUnknownType.content = some (.obj [("type", .str "mystery_type")]) ∧
    processNotification oFlat "serverpk" evUnknownType = some
      { kind := BALANCEBRIDGE_RESPONSE_KIND
        tags := [["p", evUnknownType.pubkey], ["req", "r1"]]
        content := build_response_json "r1"
          (process_bitcoin_lookup oFlat
            (query_of (.obj [("type", .str "mystery_type")]))) } :=
  ⟨rfl, rfl, rfl,
    claim_C4_amended oFlat "serverpk" evUnknownType "r1"
      (.obj [("type", .str "mystery_type")]) rfl rfl rfl⟩

/-- Counterexample to C5: for a single-address lookup the returned
transaction-id collection is the indexer's list unchanged — here
[tb, ta], which is not sorted. -/
theorem claim_C5_counterexample :
    (process_bitcoin_lookup oPartial addrW).map
        (fun r => r.transactions.map TransactionInfo.txid) =
      .ok ["tb", "ta"] ∧
    ¬ List.Sorted strLeP ["tb", "ta"] :=
  ⟨rfl, by decide⟩

/-- C5 as amended: for extended-key queries the transaction-id collection
is sorted and duplicate-free (so merging histories that share an id never
double-counts it); single-address queries return the indexer's list
unchanged. -/
theorem claim_C5_amended (o : ElectrsOracle) (q : String)
    (addrs : List String) (hx : is_xpub q = true)
    (hd : derive_addresses q 20 = .ok addrs) :
    ∃ r, process_bitcoin_lookup o q = .ok r ∧
      List.Sorted strLeP (r.transactions.map TransactionInfo.txid) ∧
      (r.transactions.map TransactionInfo.txid).Nodup := by
  refine ⟨_, process_bitcoin_lookup_xpub o hx hd, ?_⟩
  have hsorted := sorted_sortStrings (addrs.flatMap (txids_or_nil o))
  constructor
  · simpa only [map_txid_mk] using dedupAdj_sorted hsorted
  · simpa only [map_txid_mk] using dedupAdj_nodup hsorted

/-- Witness for the amended C5: the test key against the partially failing
indexer, whose remaining addresses all share the history [tb, ta]. -/
theorem claim_C5_amended_witness :
    is_xpub "xpub1234" = true ∧
    derive_addresses "xpub1234" 20 = .ok addrsX ∧
    (∃ r, process_bitcoin_lookup oPartial "xpub1234" = .ok r ∧
      List.Sorted strLeP (r.transactions.map TransactionInfo.txid) ∧
      (r.transactions.map TransactionInfo.txid).Nodup) :=
  ⟨by decide, by rfl,
    claim_C5_amended oPartial "xpub1234" addrsX (by decide) (by rfl)⟩

/-- C6: every response built for an accepted request carries a `req` field
equal to that request's correlation id, in the success branch and in the
error branch alike. -/
theorem claim_C6 (o : ElectrsOracle) (pk : String) (ev : NEvent)
    (reqId : String) (resp : RespEvent)
    (hb : is_balancebridge_request ev.tags pk = some reqId)
    (hr : processNotification o pk ev = some resp) :
    resp.content.get "req" = some (.str reqId) := by
  by_cases hk : ev.kind = BALANCEBRIDGE_REQUEST_KIND
  · cases hc : ev.content with
    | none =>
        unfold processNotification handle_event at hr
        rw [if_pos hk] at hr
        simp only [hb, extract_req_of_bb hb, hc] at hr
        exact Option.noConfusion hr
    | some body =>
        rw [processNotification_accepted o hk hb hc] at hr
        simp only [Option.some.injEq] at hr
        rw [← hr]
        exact build_response_json_req reqId _
  · unfold processNotification at hr
    rw [if_neg hk] at hr
    exact absurd hr (by simp)

/-- Witness for C6: the well-formed lookup request for `addrW`. -/
theorem claim_C6_witness :
    is_balancebridge_request evLookup.tags "serverpk" = some "r1" ∧
    processNotification oFlat "serverpk" evLookup = some respFlatLookup ∧
    respFlatLookup.content.get "req" = some (.str "r1") :=
  ⟨rfl, rfl, claim_C6 oFlat "serverpk" evLookup "r1" respFlatLookup rfl rfl⟩

/-- Counterexample to C7: in the specified scenario the published body is
the nested object with top-level keys type/req/status/result, not the flat
object with keys req/confirmed_balance/unconfirmed_balance/transactions. -/
theorem claim_C7_counterexample :
    (processNotification oFlat "serverpk" evLookup).map
        (fun r => r.content.topKeys) =
      some ["type", "req", "status", "result"] ∧
    claimedFlatBody.topKeys =
      ["req", "confirmed_balance", "unconfirmed_balance", "transactions"] ∧
    (processNotification oFlat "serverpk" evLookup).map
        (fun r => r.content.topKeys) ≠
      some claimedFlatBody.topKeys :=
  ⟨rfl, rfl, by decide⟩

/-- C7 as amended: in the specified scenario (bitcoin_lookup for a valid
native-segwit address, correlation id r1, indexer reporting confirmed=5000,
unconfirmed=0, no transactions) the published body is the nested object
with type "bitcoin_lookup_response", the echoed req, status "ok", and the
balances and empty transaction list under "result". -/
theorem claim_C7_amended :
    processNotification oFlat "serverpk" evLookup = some respFlatLookup :=
  rfl

/-- C8: the event-age check returns success regardless of the event age;
an event older than the 60-second tolerance only sets the warning flag. -/
theorem claim_C8 (event_time now : Nat) :
    (check_event_expiration event_time now).2 = Except.ok () ∧
      ((check_event_expiration event_time now).1 = true ↔
        event_time + 60 < now) := by
  unfold check_event_expiration
  refine ⟨rfl, ?_⟩
  simp only [decide_eq_true_eq]
  split <;> omega

/-- C9: every transaction entry of a successful lookup response has
timestamp 0, amount 0 and confirmations 1, whatever the indexer reports. -/
theorem claim_C9 (o : ElectrsOracle) (q : String)
    (r : BitcoinLookupResponse)
    (h : process_bitcoin_lookup o q = .ok r)
    (tx : TransactionInfo) (htx : tx ∈ r.transactions) :
    tx.timestamp = 0 ∧ tx.amount = 0 ∧ tx.confirmations = 1 := by
  unfold process_bitcoin_lookup at h
  cases hx : is_xpub q with
  | true =>
      cases hd : derive_addresses q 20 with
      | error e => simp [hx, hd] at h
      | ok addrs =>
          simp [hx, hd] at h
          subst h
          simp only [List.mem_map] at htx
          obtain ⟨txid, _, htx⟩ := htx
          rw [← htx]
          exact ⟨rfl, rfl, rfl⟩
  | false =>
      cases ha : is_bitcoin_address q with
      | false => simp [hx, ha] at h
      | true =>
          cases hbal : o.get_address_balance q with
          | error e => simp [hx, ha, hbal] at h
          | ok p =>
              obtain ⟨c, u⟩ := p
              cases ht : o.get_address_txs q with
              | error e => simp [hx, ha, hbal, ht] at h
              | ok txids =>
                  simp [hx, ha, hbal, ht] at h
                  subst h
                  simp only [List.mem_map] at htx
                  obtain ⟨txid, _, htx⟩ := htx
                  rw [← htx]
                  exact ⟨rfl, rfl, rfl⟩

/-- Witness for C9: the single-address lookup of `addrW` against
`oPartial`, whose response contains the entry for txid tb. -/
theorem claim_C9_witness :
    process_bitcoin_lookup oPartial addrW = .ok respSingle ∧
    ({ txid := "tb", timestamp := 0, amount := 0, confirmations := 1 } :
        TransactionInfo) ∈ respSingle.transactions ∧
    (({ txid := "tb", timestamp := 0, amount := 0, confirmations := 1 } :
        TransactionInfo).timestamp = 0 ∧
      ({ txid := "tb", timestamp := 0, amount := 0, confirmations := 1 } :
        TransactionInfo).amount = 0 ∧
      ({ txid := "tb", timestamp := 0, amount := 0, confirmations := 1 } :
        TransactionInfo).confirmations = 1) :=
  ⟨rfl, by decide,
    claim_C9 oPartial addrW respSingle rfl
      { txid := "tb", timestamp := 0, amount := 0, confirmations := 1 }
      (by decide)⟩

/-- C10: an accepted request whose body has no string `query` field is
still answered: the handler substitutes the empty string, classification
fails, and an error response carrying the correlation id is published. -/
theorem claim_C10 (o : ElectrsOracle) (pk : String) (ev : NEvent)
    (reqId : String) (body : Json)
    (hk : ev.kind = BALANCEBRIDGE_REQUEST_KIND)
    (hb : is_balancebridge_request ev.tags pk = some reqId)
    (hc : ev.content = some body)
    (hq : (body.get "query").bind Json.asStr = none) :
    ∃ resp, processNotification o pk ev = some resp ∧
      resp.content.get "status" = some (.str "error") ∧
      resp.content.get "req" = some (.str reqId) := by
  have hq0 : query_of body = "" := by
    unfold query_of
    rw [hq]
    rfl
  refine ⟨_, processNotification_accepted o hk hb hc, ?_, ?_⟩
  · rw [hq0, process_bitcoin_lookup_empty]
    exact build_response_json_error_status reqId _
  · exact build_response_json_req reqId _

/-- Witness for C10: the request with an unrecognized type and no query
field is answered with an error response echoing r1. -/
theorem claim_C10_witness :
    evUnknownType.kind = BALANCEBRIDGE_REQUEST_KIND ∧
    is_balancebridge_request evUnknownType.tags "serverpk" = some "r1" ∧
    evUnknownType.content = some (.obj [("type", .str "mystery_type")]) ∧
    ((.obj [("type", .str "mystery_type")] : Json).get "query").bind
        Json.asStr = none ∧
    (∃ resp, processNotification oFlat "serverpk" evUnknownType =
        some resp ∧
      resp.content.get "status" = some (.str "error") ∧
      resp.content.get "req" = some (.str "r1")) :=
  ⟨rfl, rfl, rfl, rfl,
    claim_C10 oFlat "serverpk" evUnknownType "r1"
      (.obj [("type", .str "mystery_type")]) rfl rfl rfl rfl⟩

end NomadServer
